import Mathlib

/-
Verification development for the MilitaryGeo map-overlay widget.

The repository has two variants of the MilitaryOSMLayer React component:

* the cache variant (src/MilitaryLayer.tsx): on mount one fetch per
  category in MILITARY_TYPES is started concurrently, the results are
  joined with Promise.all, written into a category-indexed cache, and
  subsequent category selections only read the cache;

* the per-view variant (the unnamed source file containing fetchData):
  every category selection triggers a fresh fetch, failures are caught
  and logged with console.error.

Both variants share the category registry (src/constants/military.ts)
and the MilitaryType union (src/types/military.ts).  The definitions
below are a shallow embedding of those files: each definition carries a
comment pointing at the source lines it translates.  GeoJSON feature
collections are modelled structurally (lists of features, each a list of
integer lat/lng positions), which is all the bounding-box logic of the
component observes.
-/

namespace MilitaryGeo

/-- A vertex of a GeoJSON geometry, as consumed by Leaflet (a lat/lng
pair).  Coordinates are modelled as integers: the component only ever
compares and min/maxes them. -/
structure Position where
  lat : Int
  lng : Int
deriving DecidableEq, Repr

/-- One GeoJSON feature, reduced to the list of coordinate positions of
its geometry (the only part of a feature the widget's bounding-box logic
observes). -/
structure Feature where
  coords : List Position
deriving DecidableEq, Repr

/-- A GeoJSON feature collection (the GeoJSONData type of
src/types/military.ts), reduced to its list of features. -/
structure GeoJSONData where
  features : List Feature
deriving DecidableEq, Repr

/-- The MilitaryType union of src/types/military.ts: the twelve string
literals of the union become the twelve constructors. -/
inductive MilitaryType where
  | barracks
  | naval_base
  | airfield
  | training_area
  | yes
  | range
  | primary
  | office
  | danger_area
  | checkpoint
  | shelter
  | bunker
deriving DecidableEq, Repr

/-- The fetch registry MILITARY_TYPES of src/constants/military.ts:
eleven of the twelve MilitaryType values, in source order ("bunker" is
absent). -/
def MILITARY_TYPES : List MilitaryType :=
  [ MilitaryType.barracks
  , MilitaryType.naval_base
  , MilitaryType.airfield
  , MilitaryType.training_area
  , MilitaryType.yes
  , MilitaryType.range
  , MilitaryType.primary
  , MilitaryType.office
  , MilitaryType.danger_area
  , MilitaryType.checkpoint
  , MilitaryType.shelter ]

/-- The label table MILITARY_LABELS of src/constants/military.ts: a
total mapping from MilitaryType to its Polish display label (all twelve
keys are present, including bunker). -/
def MILITARY_LABELS : MilitaryType → String
  | MilitaryType.barracks => "Koszary"
  | MilitaryType.naval_base => "Baza morska"
  | MilitaryType.airfield => "Lotnisko wojskowe"
  | MilitaryType.training_area => "Poligon"
  | MilitaryType.yes => "Obiekt wojskowy"
  | MilitaryType.range => "Strzelnica / teren cwiczen"
  | MilitaryType.primary => "Obiekt glowny"
  | MilitaryType.office => "Biuro wojskowe"
  | MilitaryType.danger_area => "Strefa niebezpieczna"
  | MilitaryType.checkpoint => "Punkt kontrolny"
  | MilitaryType.shelter => "Schron"
  | MilitaryType.bunker => "Bunkier"

/-! ## Leaflet bounds (layerRef.current.getBounds / bounds.isValid) -/

/-- A Leaflet LatLngBounds object.  A fresh bounds object is
uninitialized; extending it with at least one point initializes it, and
isValid() reports exactly that. -/
structure LatLngBounds where
  initialized : Bool
  south : Int
  west : Int
  north : Int
  east : Int
deriving DecidableEq, Repr

/-- A bounds object before any point has been added. -/
def emptyBounds : LatLngBounds :=
  { initialized := false, south := 0, west := 0, north := 0, east := 0 }

/-- Leaflet LatLngBounds.extend: grow the bounds to include one point. -/
def extendBounds (b : LatLngBounds) (p : Position) : LatLngBounds :=
  if b.initialized then
    { initialized := true
    , south := min b.south p.lat
    , west := min b.west p.lng
    , north := max b.north p.lat
    , east := max b.east p.lng }
  else
    { initialized := true, south := p.lat, west := p.lng, north := p.lat, east := p.lng }

/-- Leaflet bounds.isValid(): true iff the bounds were extended with at
least one point. -/
def boundsValid (b : LatLngBounds) : Bool :=
  b.initialized

/-- layerRef.current.getBounds() for a GeoJSON layer built from the
collection fc: the bounds extended over every coordinate of every
feature. -/
def getBounds (fc : GeoJSONData) : LatLngBounds :=
  fc.features.foldl (fun b f => f.coords.foldl extendBounds b) emptyBounds

/-- A map.fitBounds(bounds, \x7b animate: true \x7d) call issued by the
fitBounds effect. -/
structure FitRequest where
  bounds : LatLngBounds
  animate : Bool
deriving DecidableEq, Repr

/-! ## Cache variant: MilitaryOSMLayer of src/MilitaryLayer.tsx -/

/-- The React state and refs of the cache-variant component: the
selected militaryType, the displayed data, the loading flag, and
cacheRef.current (a record from category to a fetched collection;
absent keys read as undefined, modelled as none). -/
structure ComponentState where
  militaryType : MilitaryType
  data : Option GeoJSONData
  loading : Bool
  cache : MilitaryType → Option GeoJSONData

/-- The component state after useState initialization: militaryType is
"barracks", data is null, loading is false, cacheRef.current is the
empty record. -/
def initialState : ComponentState :=
  { militaryType := MilitaryType.barracks
  , data := none
  , loading := false
  , cache := fun _ => none }

/-- Outcome environment for fetchLayer: each category's fetch either
resolves with a feature collection (osmtogeojson of the Overpass
response) or rejects with an error. -/
def FetchEnv : Type :=
  MilitaryType → Except String GeoJSONData

/-- The join Promise.all(MILITARY_TYPES.map(fetchLayer)): succeeds with
the list of (type, geo) pairs when every fetch resolves, rejects with
the first rejection otherwise. -/
def fetchAll (env : FetchEnv) : List MilitaryType → Except String (List (MilitaryType × GeoJSONData))
  | [] => Except.ok []
  | t :: ts =>
    match env t with
    | Except.error e => Except.error e
    | Except.ok geo =>
      match fetchAll env ts with
      | Except.error e => Except.error e
      | Except.ok rest => Except.ok ((t, geo) :: rest)

/-- One assignment cacheRef.current[type] = geo. -/
def writeCache (c : MilitaryType → Option GeoJSONData) (t : MilitaryType) (g : GeoJSONData) :
    MilitaryType → Option GeoJSONData :=
  fun u => if u = t then some g else c u

/-- The loop results.forEach((\x7b type, geo \x7d) => \x7b
cacheRef.current[type] = geo \x7d). -/
def applyWrites (results : List (MilitaryType × GeoJSONData))
    (c : MilitaryType → Option GeoJSONData) : MilitaryType → Option GeoJSONData :=
  results.foldl (fun acc p => writeCache acc p.1 p.2) c

/-- The mount effect's loadAll (src/MilitaryLayer.tsx lines 64-81):
setLoading(true); await Promise.all of one fetchLayer per registry
category; then, unless the cancellation flag was set, write every
result into the cache, setLoading(false) and setData(cache[militaryType]
or null).  The returned Except is the promise returned by loadAll():
loadAll() is invoked with no rejection handler, so an error outcome is
an unhandled rejection and none of the post-await writes run. -/
def loadAllRun (env : FetchEnv) (cancelled : Bool) (s : ComponentState) :
    ComponentState × Except String Unit :=
  let s1 := { s with loading := true }
  match fetchAll env MILITARY_TYPES with
  | Except.error e => (s1, Except.error e)
  | Except.ok results =>
    if cancelled then
      (s1, Except.ok ())
    else
      let cache2 := applyWrites results s1.cache
      ({ s1 with cache := cache2, loading := false, data := cache2 s1.militaryType }
      , Except.ok ())

/-- The truthiness of cacheRef in the guard of the category-change
effect.  cacheRef is the ref container object itself (not
cacheRef.current[militaryType]), and a ref object is always truthy. -/
def cacheRefTruthy : Bool :=
  true

/-- The category-change effect (src/MilitaryLayer.tsx lines 91-96):
const cached = cacheRef.current[militaryType]; if (cacheRef)
setData(cached).  Because the guard tests the ref object, it always
passes, so setData runs with the looked-up value even when the entry is
absent (undefined, modelled as none). -/
def categoryChangeEffect (s : ComponentState) : ComponentState :=
  let cached := s.cache s.militaryType
  if cacheRefTruthy then { s with data := cached } else s

/-- A click on a category button (onClick sets militaryType) followed by
the category-change effect it triggers. -/
def selectCategory (s : ComponentState) (c : MilitaryType) : ComponentState :=
  categoryChangeEffect { s with militaryType := c }

/-- What the component's JSX renders from its state: the full-screen
loader when loading, one button per registry category with its label,
and the GeoJSON layer bound to data when data is non-null.  There is no
error element in the markup. -/
structure RenderOutput where
  loaderShown : Bool
  buttons : List (MilitaryType × String)
  layer : Option GeoJSONData
deriving DecidableEq, Repr

/-- The render of the cache-variant component. -/
def render (s : ComponentState) : RenderOutput :=
  { loaderShown := s.loading
  , buttons := MILITARY_TYPES.map (fun t => (t, MILITARY_LABELS t))
  , layer := s.data }

/-- The fitBounds effect (src/MilitaryLayer.tsx lines 99-109), run once
per change of the displayed data reference: if (!data ||
!layerRef.current) return; compute the layer's bounds; if valid,
map.fitBounds(bounds, animate).  The returned Option is the fit request
the run issues: some r means exactly one fitBounds call with request r,
none means no call.  layerRef.current is produced by the render
(data && GeoJSON with ref=layerRef), so it holds a layer built from
exactly the displayed collection when data is non-null. -/
def renderLayerRef (data : Option GeoJSONData) : Option GeoJSONData :=
  data

/-- One run of the fitBounds effect for a given displayed data value. -/
def fitBoundsEffect (data : Option GeoJSONData) : Option FitRequest :=
  match data with
  | none => none
  | some _ =>
    match renderLayerRef data with
    | none => none
    | some layerData =>
      let bounds := getBounds layerData
      if boundsValid bounds then some { bounds := bounds, animate := true } else none

/-! ## Event traces of the cache variant

To state the temporal claims (ordering of loading/cache/data writes
relative to fetch completions) the mount effect is also modelled as the
sequence of primitive events it performs.  The order in which the
concurrent fetches complete is not determined by the code, so it is a
parameter (doneOrder); the writes of the post-await block follow the
source order of loadAll. -/

/-- Primitive observable events of the cache-variant component. -/
inductive Ev where
  | setLoadingEv (b : Bool)
  | fetchStart (t : MilitaryType)
  | fetchDone (t : MilitaryType)
  | cacheWrite (t : MilitaryType)
  | setDataEv
deriving DecidableEq, Repr

/-- Events that write component state after the batch resolves: a cache
write, a data write, or clearing the loading flag.  setLoadingEv true is
not among them: it happens at the start of loadAll, before the await. -/
def isWriteEv : Ev → Bool
  | Ev.cacheWrite _ => true
  | Ev.setDataEv => true
  | Ev.setLoadingEv false => true
  | _ => false

/-- Events marking the completion of one category's retrieval. -/
def isDoneEv : Ev → Bool
  | Ev.fetchDone _ => true
  | _ => false

/-- The prefix of the mount-effect trace up to the resolution of
Promise.all: setLoading(true), one fetch started per registry category,
then the completions in the (nondeterministic) order doneOrder. -/
def loadPre (doneOrder : List MilitaryType) : List Ev :=
  [Ev.setLoadingEv true] ++ MILITARY_TYPES.map Ev.fetchStart ++ doneOrder.map Ev.fetchDone

/-- The post-await block of loadAll when the cancellation flag is not
set: the cache writes in registry order, then setLoading(false), then
setData. -/
def loadPost : List Ev :=
  MILITARY_TYPES.map Ev.cacheWrite ++ [Ev.setLoadingEv false, Ev.setDataEv]

/-- The full event trace of the mount effect in the run where every
fetch completes (in order doneOrder): if the cancellation flag is set by
the time the batch resolves, the post-await block is skipped. -/
def loadAllTrace (cancelled : Bool) (doneOrder : List MilitaryType) : List Ev :=
  loadPre doneOrder ++ (if cancelled then [] else loadPost)

/-- The event trace of one run of the category-change effect: it reads
the cache and writes only the data state (no fetch, no cache write). -/
def selectionTrace : List Ev :=
  [Ev.setDataEv]

/-- The event trace of a session: the mount effect (all fetches
complete, not cancelled) followed by one category-change effect per
selection. -/
def sessionTrace (doneOrder : List MilitaryType) (selections : List MilitaryType) : List Ev :=
  loadAllTrace false doneOrder ++ selections.flatMap (fun _ => selectionTrace)

/-! ## Per-view variant: MilitaryOSMLayer with fetchData

The other source file's component has no cache: a useEffect on
militaryType calls fetchData(militaryType) on every selection change.
fetchData shows the loader, clears the displayed data, awaits the
Overpass fetch, stores the result on success, and on failure logs
console.error("Blad Overpass:", e); the finally branch hides the
loader. -/

/-- The React state of the per-view component (no cache ref). -/
structure ViewState where
  militaryType : MilitaryType
  data : Option GeoJSONData
  loading : Bool
deriving DecidableEq, Repr

/-- The per-view component state after useState initialization. -/
def viewInitial : ViewState :=
  { militaryType := MilitaryType.barracks, data := none, loading := false }

/-- Diagnostic-channel events of the per-view variant. -/
inductive LogEv where
  | consoleError (msg : String)
deriving DecidableEq, Repr

/-- One run of fetchData given the outcome of its awaited fetch:
setLoading(true) and setData(null) first; on success setData(geojson);
on failure console.error; finally setLoading(false).  Returns the new
state and the diagnostic log entries emitted. -/
def fetchDataRun (result : Except String GeoJSONData) (s : ViewState) :
    ViewState × List LogEv :=
  let s1 := { s with loading := true, data := none }
  match result with
  | Except.ok geo => ({ s1 with data := some geo, loading := false }, [])
  | Except.error e => ({ s1 with loading := false }, [LogEv.consoleError ("Blad Overpass: " ++ e)])

/-- The render of the per-view component: same markup shape as the cache
variant (loader, buttons, optional layer; no error element). -/
def viewRender (s : ViewState) : RenderOutput :=
  { loaderShown := s.loading
  , buttons := MILITARY_TYPES.map (fun t => (t, MILITARY_LABELS t))
  , layer := s.data }

/-- Fetch outcomes of the per-view variant, indexed by the position of
the selection in the session (the network may answer differently each
time). -/
def TimedFetchEnv : Type :=
  Nat → MilitaryType → Except String GeoJSONData

/-- A session of the per-view variant: each selection in the list sets
militaryType and runs the militaryType effect, which issues exactly one
fetchData call.  Returns the final state and the list of categories for
which a fetch was issued, in order. -/
def viewRun (env : TimedFetchEnv) : List MilitaryType → Nat → ViewState → ViewState × List MilitaryType
  | [], _, s => (s, [])
  | c :: rest, i, s =>
    let s1 := { s with militaryType := c }
    let r := fetchDataRun (env i c) s1
    let k := viewRun env rest (i + 1) r.1
    (k.1, c :: k.2)

/-! ## Concrete fixtures used by witnesses and counterexamples -/

/-- A one-feature, one-vertex collection. -/
def fc0 : GeoJSONData :=
  { features := [{ coords := [{ lat := 52, lng := 21 }] }] }

/-- The empty feature collection (no features, hence invalid bounds). -/
def fcEmpty : GeoJSONData :=
  { features := [] }

/-- An environment in which every fetch resolves with fc0. -/
def envAllOk : FetchEnv :=
  fun _ => Except.ok fc0

/-- An environment in which the barracks fetch rejects and every other
fetch resolves. -/
def envBarracksFails : FetchEnv :=
  fun t => if t = MilitaryType.barracks then Except.error "timeout" else Except.ok fc0

/-- A timed environment for the per-view variant: the first selection's
fetch rejects, every later fetch resolves with fc0. -/
def envRetry : TimedFetchEnv :=
  fun i _ => if i = 0 then Except.error "timeout" else Except.ok fc0

/-- A cache-variant state with a collection displayed and an entirely
empty cache (the state just after mount, with data artificially set, to
probe the category-change effect on a missing entry). -/
def stateMissingEntry : ComponentState :=
  { militaryType := MilitaryType.barracks
  , data := some fc0
  , loading := false
  , cache := fun _ => none }

/-- A cache-variant state whose cache holds fc0 under shelter. -/
def stateShelterCached : ComponentState :=
  { militaryType := MilitaryType.barracks
  , data := none
  , loading := false
  , cache := writeCache (fun _ => none) MilitaryType.shelter fc0 }

/-- The selection sequence used to probe retry behaviour of the per-view
variant: a category whose first fetch fails is later re-selected. -/
def retrySelections : List MilitaryType :=
  [MilitaryType.shelter, MilitaryType.barracks, MilitaryType.shelter]

/-! ## Helper lemmas -/

/-- Promise.all rejects when any of the joined fetches rejects. -/
theorem fetchAll_error_of_mem (env : FetchEnv) :
    ∀ (l : List MilitaryType) (t : MilitaryType), t ∈ l →
      (∃ e, env t = Except.error e) → ∃ msg, fetchAll env l = Except.error msg := by
  intro l
  induction l with
  | nil => intro t ht _; cases ht
  | cons u us ih =>
    intro t ht hte
    obtain ⟨e, he⟩ := hte
    cases hu : env u with
    | error e2 => exact ⟨e2, by simp [fetchAll, hu]⟩
    | ok g =>
      have htus : t ∈ us := by
        rcases List.mem_cons.mp ht with h1 | h1
        · subst h1; rw [he] at hu; cases hu
        · exact h1
      obtain ⟨msg, hm⟩ := ih t htus ⟨e, he⟩
      exact ⟨msg, by simp [fetchAll, hu, hm]⟩

/-- Promise.all resolves when every joined fetch resolves, and the
result list carries one pair per category. -/
theorem fetchAll_ok_keys (env : FetchEnv) :
    ∀ (l : List MilitaryType), (∀ t ∈ l, ∃ g, env t = Except.ok g) →
      ∃ res, fetchAll env l = Except.ok res ∧ ∀ t ∈ l, ∃ g, (t, g) ∈ res := by
  intro l
  induction l with
  | nil => exact fun _ => ⟨[], by simp [fetchAll], fun t ht => absurd ht (List.not_mem_nil t)⟩
  | cons u us ih =>
    intro h
    obtain ⟨g, hg⟩ := h u (List.mem_cons_self u us)
    obtain ⟨res, hres, hkeys⟩ := ih (fun t ht => h t (List.mem_cons_of_mem u ht))
    refine ⟨(u, g) :: res, by simp [fetchAll, hg, hres], ?_⟩
    intro t ht
    rcases List.mem_cons.mp ht with h1 | h1
    · exact ⟨g, by simp [h1]⟩
    · obtain ⟨g2, hg2⟩ := hkeys t h1
      exact ⟨g2, List.mem_cons_of_mem _ hg2⟩

/-- The keys of a resolved batch are exactly the requested categories,
in order. -/
theorem fetchAll_ok_fst (env : FetchEnv) :
    ∀ (l : List MilitaryType) (res : List (MilitaryType × GeoJSONData)),
      fetchAll env l = Except.ok res → res.map Prod.fst = l := by
  intro l
  induction l with
  | nil =>
    intro res h
    simp [fetchAll] at h
    subst h
    rfl
  | cons u us ih =>
    intro res h
    cases hu : env u with
    | error e => simp [fetchAll, hu] at h
    | ok g =>
      cases hrec : fetchAll env us with
      | error e => simp [fetchAll, hu, hrec] at h
      | ok rest =>
        simp [fetchAll, hu, hrec] at h
        subst h
        simp [ih rest hrec]

/-- Unfolding one step of the cache-write loop. -/
theorem applyWrites_cons (p : MilitaryType × GeoJSONData)
    (ps : List (MilitaryType × GeoJSONData)) (c : MilitaryType → Option GeoJSONData) :
    applyWrites (p :: ps) c = applyWrites ps (writeCache c p.1 p.2) :=
  rfl

/-- The cache-write loop never erases an entry that is already set. -/
theorem applyWrites_preserves_isSome :
    ∀ (res : List (MilitaryType × GeoJSONData)) (c : MilitaryType → Option GeoJSONData)
      (t : MilitaryType), (c t).isSome = true → (applyWrites res c t).isSome = true := by
  intro res
  induction res with
  | nil => intro c t h; exact h
  | cons p ps ih =>
    intro c t h
    rw [applyWrites_cons]
    apply ih
    by_cases ht : t = p.1 <;> simp [writeCache, ht, h]

/-- Every category that occurs in the resolved batch ends up with a set
cache entry. -/
theorem applyWrites_key_isSome :
    ∀ (res : List (MilitaryType × GeoJSONData)) (c : MilitaryType → Option GeoJSONData)
      (t : MilitaryType) (g : GeoJSONData), (t, g) ∈ res →
      (applyWrites res c t).isSome = true := by
  intro res
  induction res with
  | nil => intro c t g h; cases h
  | cons p ps ih =>
    intro c t g h
    rcases List.mem_cons.mp h with h1 | h1
    · have ht : t = p.1 := by rw [← h1]
      rw [applyWrites_cons]
      apply applyWrites_preserves_isSome
      simp [writeCache, ht]
    · rw [applyWrites_cons]
      exact ih _ t g h1

/-- The cache-write loop leaves keys outside the batch untouched. -/
theorem applyWrites_not_mem (t : MilitaryType) :
    ∀ (res : List (MilitaryType × GeoJSONData)) (c : MilitaryType → Option GeoJSONData),
      t ∉ res.map Prod.fst → applyWrites res c t = c t := by
  intro res
  induction res with
  | nil => intro c _; rfl
  | cons p ps ih =>
    intro c h
    have h1 : t ≠ p.1 := fun he => h (by simp [he])
    have h2 : t ∉ ps.map Prod.fst := fun hm => h (by simp [hm])
    rw [applyWrites_cons, ih _ h2]
    simp [writeCache, h1]

/-- Reduction of the mount effect when the batch rejects: only the
initial setLoading(true) has happened; the rejection is the value of the
unhandled loadAll() promise. -/
theorem loadAllRun_error (env : FetchEnv) (cancelled : Bool) (s : ComponentState)
    (e : String) (he : fetchAll env MILITARY_TYPES = Except.error e) :
    loadAllRun env cancelled s = ({ s with loading := true }, Except.error e) := by
  simp [loadAllRun, he]

/-- Reduction of the mount effect when the batch resolves and the
cancellation flag is clear. -/
theorem loadAllRun_ok (env : FetchEnv) (s : ComponentState)
    (res : List (MilitaryType × GeoJSONData))
    (hres : fetchAll env MILITARY_TYPES = Except.ok res) :
    loadAllRun env false s =
      ({ militaryType := s.militaryType
       , data := applyWrites res s.cache s.militaryType
       , loading := false
       , cache := applyWrites res s.cache }, Except.ok ()) := by
  simp [loadAllRun, hres]

/-- When the cancellation flag is set by resolution time, the component
state after the mount effect carries only the initial setLoading(true):
cache and data are untouched. -/
theorem loadAllRun_cancelled_fst (env : FetchEnv) (s : ComponentState) :
    (loadAllRun env true s).1 = { s with loading := true } := by
  cases hres : fetchAll env MILITARY_TYPES <;> simp [loadAllRun, hres]

/-- No event of the pre-resolution part of the mount trace writes
component state after the batch. -/
theorem isWriteEv_loadPre (doneOrder : List MilitaryType) :
    ∀ e ∈ loadPre doneOrder, isWriteEv e = false := by
  intro e he
  simp [loadPre] at he
  rcases he with h | ⟨t, _, h⟩ | ⟨t, _, h⟩ <;> subst h <;> rfl

/-- When every fetch completes, each category's completion event is in
the pre-resolution part of the mount trace. -/
theorem fetchDone_mem_loadPre (doneOrder : List MilitaryType)
    (hperm : doneOrder.Perm MILITARY_TYPES) :
    ∀ t ∈ MILITARY_TYPES, Ev.fetchDone t ∈ loadPre doneOrder := by
  intro t ht
  have hmem : t ∈ doneOrder := hperm.mem_iff.mpr ht
  exact List.mem_append.mpr (Or.inr (List.mem_map.mpr ⟨t, hmem, rfl⟩))

/-- Membership in the registry is exactly being any category other than
bunker. -/
theorem mem_MILITARY_TYPES_iff (t : MilitaryType) :
    t ∈ MILITARY_TYPES ↔ t ≠ MilitaryType.bunker := by
  cases t <;> decide

/-- Per-view variant: every selection issues exactly one fetch, for the
selected category, in order. -/
theorem viewRun_attempts (env : TimedFetchEnv) :
    ∀ (selections : List MilitaryType) (i : Nat) (s : ViewState),
      (viewRun env selections i s).2 = selections := by
  intro selections
  induction selections with
  | nil => intro i s; rfl
  | cons c rest ih => intro i s; simp [viewRun, ih]

/-! ## Claim theorems -/

/-- Claim C1 (code evaluated at the failing input): selecting shelter
while the cache has no entry for shelter does NOT leave the previously
displayed collection fc0 in place — the category-change effect sets the
displayed data to none, because its guard if (cacheRef) tests the
always-truthy ref container instead of the looked-up value cached, so
setData(undefined) runs.  This contradicts the spec's contract that an
absent entry leaves the previous data visible unchanged. -/
theorem selectMissing_clears_displayed_data :
    (selectCategory stateMissingEntry MilitaryType.shelter).data = none ∧
      stateMissingEntry.data = some fc0 := by
  constructor <;> rfl

/-- Claim C2: each category's cache entry is written at most once in a
whole session trace (the write happens during the initial batch), the
category-change effect's trace contains no fetch start and no cache
write, and the state-level selection transition preserves the cache. -/
theorem cache_written_once_and_selection_readonly
    (doneOrder selections : List MilitaryType) :
    (∀ t : MilitaryType,
        (sessionTrace doneOrder selections).count (Ev.cacheWrite t) ≤ 1) ∧
    (∀ e ∈ selections.flatMap (fun _ => selectionTrace),
        ∀ t : MilitaryType, e ≠ Ev.fetchStart t ∧ e ≠ Ev.cacheWrite t) ∧
    (∀ (s : ComponentState) (c : MilitaryType), (selectCategory s c).cache = s.cache) := by
  refine ⟨?_, ?_, ?_⟩
  · intro t
    have h1 : (loadPre doneOrder).count (Ev.cacheWrite t) = 0 := by
      refine List.count_eq_zero.mpr ?_
      intro hmem
      simp [loadPre] at hmem
    have h2 : (selections.flatMap (fun _ => selectionTrace)).count (Ev.cacheWrite t) = 0 := by
      refine List.count_eq_zero.mpr ?_
      intro hmem
      simp [selectionTrace] at hmem
    have h3 : loadPost.count (Ev.cacheWrite t) ≤ 1 := by
      cases t <;> decide
    have h4 : (sessionTrace doneOrder selections).count (Ev.cacheWrite t) =
        (loadPre doneOrder).count (Ev.cacheWrite t) + loadPost.count (Ev.cacheWrite t) +
          (selections.flatMap (fun _ => selectionTrace)).count (Ev.cacheWrite t) := by
      simp [sessionTrace, loadAllTrace, List.count_append]
      omega
    omega
  · intro e he t
    have h1 : e = Ev.setDataEv := by
      obtain ⟨c, _, h2⟩ := List.mem_flatMap.mp he
      simpa [selectionTrace] using h2
    subst h1
    exact ⟨fun h => Ev.noConfusion h, fun h => Ev.noConfusion h⟩
  · intro s c
    rfl

/-- Witness for claim C2 at a concrete session. -/
theorem cache_written_once_witness :
    (sessionTrace MILITARY_TYPES [MilitaryType.shelter]).count
        (Ev.cacheWrite MilitaryType.barracks) ≤ 1 :=
  (cache_written_once_and_selection_readonly MILITARY_TYPES [MilitaryType.shelter]).1
    MilitaryType.barracks

/-- Claim C3: when any registry category's fetch rejects, the loadAll()
promise rejects (an unhandled rejection, since loadAll() is invoked with
no handler), the batch writes no cache entry, the loading flag is left
set (the indicator is never cleared), and the displayed data is not
touched. -/
theorem failed_batch_unhandled (env : FetchEnv) (s : ComponentState) (t : MilitaryType)
    (ht : t ∈ MILITARY_TYPES) (e : String) (he : env t = Except.error e) :
    (∃ msg, (loadAllRun env false s).2 = Except.error msg) ∧
      (loadAllRun env false s).1.cache = s.cache ∧
      (loadAllRun env false s).1.loading = true ∧
      (loadAllRun env false s).1.data = s.data := by
  obtain ⟨msg, hm⟩ := fetchAll_error_of_mem env MILITARY_TYPES t ht ⟨e, he⟩
  rw [loadAllRun_error env false s msg hm]
  exact ⟨⟨msg, rfl⟩, rfl, rfl, rfl⟩

/-- Witness for claim C3: the barracks fetch fails concretely. -/
theorem failed_batch_unhandled_witness :
    (loadAllRun envBarracksFails false initialState).1.loading = true :=
  (failed_batch_unhandled envBarracksFails initialState MilitaryType.barracks (by decide)
      "timeout" rfl).2.2.1

/-- Claim C4: when every registry fetch resolves, the batch leaves a set
(non-null) cache entry for every category in MILITARY_TYPES. -/
theorem batch_success_populates_cache (env : FetchEnv) (s : ComponentState)
    (hok : ∀ t ∈ MILITARY_TYPES, ∃ g, env t = Except.ok g) :
    ∀ t ∈ MILITARY_TYPES, ((loadAllRun env false s).1.cache t).isSome = true := by
  obtain ⟨res, hres, hkeys⟩ := fetchAll_ok_keys env MILITARY_TYPES hok
  intro t ht
  obtain ⟨g, hg⟩ := hkeys t ht
  rw [loadAllRun_ok env s res hres]
  exact applyWrites_key_isSome res s.cache t g hg

/-- Witness for claim C4 in the all-resolving environment. -/
theorem batch_success_populates_cache_witness :
    ((loadAllRun envAllOk false initialState).1.cache MilitaryType.shelter).isSome = true :=
  batch_success_populates_cache envAllOk initialState (fun _ _ => ⟨fc0, rfl⟩)
    MilitaryType.shelter (by decide)

/-- Claim C5: one run of the fitBounds effect issues exactly one
viewport-fit request, carrying the displayed collection's computed
bounds, precisely when a collection is displayed and its bounds are
valid; it issues no request when no collection is displayed or the
bounds are invalid (the effect's Option result encodes the count of
fitBounds calls of the run: some = exactly one, none = zero). -/
theorem fit_request_iff_valid_bounds (d : Option GeoJSONData) :
    (∀ fc, d = some fc → boundsValid (getBounds fc) = true →
        fitBoundsEffect d = some { bounds := getBounds fc, animate := true }) ∧
    (d = none → fitBoundsEffect d = none) ∧
    (∀ fc, d = some fc → boundsValid (getBounds fc) = false →
        fitBoundsEffect d = none) := by
  refine ⟨?_, ?_, ?_⟩
  · intro fc hd hv
    subst hd
    simp [fitBoundsEffect, renderLayerRef, hv]
  · intro hd
    subst hd
    rfl
  · intro fc hd hv
    subst hd
    simp [fitBoundsEffect, renderLayerRef, hv]

/-- Witness for claim C5: a one-point collection has valid bounds and
the effect requests exactly those bounds. -/
theorem fit_request_iff_valid_bounds_witness :
    fitBoundsEffect (some fc0) = some { bounds := getBounds fc0, animate := true } :=
  (fit_request_iff_valid_bounds (some fc0)).1 fc0 rfl (by decide)

/-- Claim C6 counterexample (refuting the claim as stated): in the
per-view variant, after the shelter fetch fails on the first selection,
re-selecting shelter later in the same session issues a second fetch
for shelter (a retry), and that fetch can succeed, after which shelter's
data is displayed — so a failing fetch does not leave the category
permanently unavailable for the session with no retry. -/
theorem failed_category_refetched_on_reselect :
    (viewRun envRetry retrySelections 0 viewInitial).2.count MilitaryType.shelter = 2 ∧
    (viewRun envRetry retrySelections 0 viewInitial).1.data = some fc0 ∧
    (viewRun envRetry retrySelections 0 viewInitial).1.militaryType = MilitaryType.shelter := by
  refine ⟨?_, ?_, ?_⟩ <;> decide

/-- Claim C6 (amended): in the caught-and-logged per-view variant, a
failing fetch is caught and logged to the diagnostic channel
(console.error), the loader is cleared, the failed selection displays
no data, and no user-visible error is rendered (the markup has no error
element); the failed request itself is not retried — each selection
issues exactly one fetch — but a later re-selection of the category
issues a fresh fetch, so the category is not permanently unavailable. -/
theorem caught_fetch_failure_behavior (e : String) (res : Except String GeoJSONData)
    (s : ViewState) (hres : res = Except.error e) :
    (fetchDataRun res s).1.data = none ∧
    (fetchDataRun res s).1.loading = false ∧
    (fetchDataRun res s).2 = [LogEv.consoleError ("Blad Overpass: " ++ e)] ∧
    (viewRender (fetchDataRun res s).1).layer = none ∧
    (viewRender (fetchDataRun res s).1).loaderShown = false ∧
    (∀ (env : TimedFetchEnv) (selections : List MilitaryType) (i : Nat) (s2 : ViewState),
        (viewRun env selections i s2).2 = selections) := by
  subst hres
  exact ⟨rfl, rfl, rfl, rfl, rfl, fun env => viewRun_attempts env⟩

/-- Witness for the amended claim C6 at a concrete failing fetch. -/
theorem caught_fetch_failure_witness :
    (fetchDataRun (Except.error "timeout") viewInitial).2 =
      [LogEv.consoleError ("Blad Overpass: " ++ "timeout")] :=
  (caught_fetch_failure_behavior "timeout" (Except.error "timeout") viewInitial rfl).2.2.1

/-- Claim C7: in a run of the mount effect in which every fetch
completes and the widget stays mounted, the trace splits into a prefix
holding all fetch completions and no post-batch state write, and a
suffix holding all the cache writes, the clearing of the loading flag,
and the data write, with no fetch completion — the loader is cleared
and data revealed only after all retrievals have completed, never
incrementally. -/
theorem loading_cleared_after_all_fetches (doneOrder : List MilitaryType)
    (hperm : doneOrder.Perm MILITARY_TYPES) :
    loadAllTrace false doneOrder = loadPre doneOrder ++ loadPost ∧
    (∀ t ∈ MILITARY_TYPES, Ev.fetchDone t ∈ loadPre doneOrder) ∧
    (∀ e ∈ loadPre doneOrder, isWriteEv e = false) ∧
    (∀ e ∈ loadPost, isDoneEv e = false) ∧
    Ev.setLoadingEv false ∈ loadPost ∧
    Ev.setDataEv ∈ loadPost ∧
    (∀ t ∈ MILITARY_TYPES, Ev.cacheWrite t ∈ loadPost) := by
  refine ⟨rfl, fetchDone_mem_loadPre doneOrder hperm, isWriteEv_loadPre doneOrder,
    by decide, by decide, by decide, ?_⟩
  intro t ht
  exact List.mem_append.mpr (Or.inl (List.mem_map.mpr ⟨t, ht, rfl⟩))

/-- Witness for claim C7 with the completions in registry order. -/
theorem loading_cleared_after_all_fetches_witness :
    Ev.fetchDone MilitaryType.barracks ∈ loadPre MILITARY_TYPES :=
  (loading_cleared_after_all_fetches MILITARY_TYPES (List.Perm.refl _)).2.1
    MilitaryType.barracks (by decide)

/-- Claim C8: when the cancellation flag is set before the batch
resolves, the state after the mount effect carries no post-resolution
write — cache and displayed data are exactly as before, and the loading
flag keeps the value written at effect start — while every category's
retrieval still ran to completion (the flag aborts nothing); the
cancelled trace contains every fetch completion and no post-batch state
write. -/
theorem unmount_prevents_state_updates (env : FetchEnv) (s : ComponentState)
    (doneOrder : List MilitaryType) (hperm : doneOrder.Perm MILITARY_TYPES) :
    (loadAllRun env true s).1.cache = s.cache ∧
    (loadAllRun env true s).1.data = s.data ∧
    (loadAllRun env true s).1.loading = true ∧
    (∀ t ∈ MILITARY_TYPES, Ev.fetchDone t ∈ loadAllTrace true doneOrder) ∧
    (∀ e ∈ loadAllTrace true doneOrder, isWriteEv e = false) := by
  rw [loadAllRun_cancelled_fst env s]
  refine ⟨rfl, rfl, rfl, ?_, ?_⟩
  · intro t ht
    have h1 : Ev.fetchDone t ∈ loadPre doneOrder := fetchDone_mem_loadPre doneOrder hperm t ht
    simpa [loadAllTrace] using h1
  · intro e he
    have h1 : e ∈ loadPre doneOrder := by simpa [loadAllTrace] using he
    exact isWriteEv_loadPre doneOrder e h1

/-- Witness for claim C8 in the all-resolving environment. -/
theorem unmount_prevents_state_updates_witness :
    (loadAllRun envAllOk true initialState).1.data = initialState.data :=
  (unmount_prevents_state_updates envAllOk initialState MILITARY_TYPES
      (List.Perm.refl _)).2.1

/-- Claim C9: selecting a category whose cache entry is populated sets
the displayed data to exactly that entry's collection, and the rendered
GeoJSON layer is bound to that same collection with no transformation. -/
theorem select_cached_category_displays_entry (s : ComponentState) (c : MilitaryType)
    (fc : GeoJSONData) (h : s.cache c = some fc) :
    (selectCategory s c).data = some fc ∧
      (render (selectCategory s c)).layer = some fc := by
  have hd : (selectCategory s c).data = some fc := by
    simp [selectCategory, categoryChangeEffect, cacheRefTruthy, h]
  exact ⟨hd, by simp [render, hd]⟩

/-- Witness for claim C9: a cache with fc0 stored under shelter. -/
theorem select_cached_category_witness :
    (selectCategory stateShelterCached MilitaryType.shelter).data = some fc0 :=
  (select_cached_category_displays_entry stateShelterCached MilitaryType.shelter fc0
      (by decide)).1

/-- Claim C10: the registry MILITARY_TYPES has eleven entries and
contains exactly the MilitaryType values other than bunker; bunker
still has a display label in MILITARY_LABELS; no rendered category
button carries bunker; the mount effect's trace never starts a fetch
for bunker; and after the mount effect (whatever the fetch outcomes)
the cache entry for bunker is still absent. -/
theorem bunker_never_in_registry :
    MILITARY_TYPES.length = 11 ∧
    (∀ t : MilitaryType, t ∈ MILITARY_TYPES ↔ t ≠ MilitaryType.bunker) ∧
    MILITARY_LABELS MilitaryType.bunker = "Bunkier" ∧
    (∀ p ∈ (render initialState).buttons, p.1 ≠ MilitaryType.bunker) ∧
    (∀ doneOrder : List MilitaryType,
        Ev.fetchStart MilitaryType.bunker ∉ loadAllTrace false doneOrder) ∧
    (∀ env : FetchEnv,
        (loadAllRun env false initialState).1.cache MilitaryType.bunker = none) := by
  refine ⟨rfl, mem_MILITARY_TYPES_iff, rfl, ?_, ?_, ?_⟩
  · intro p hp
    simp [render] at hp
    obtain ⟨t, ht, hpt⟩ := hp
    have h1 : p.1 = t := by rw [← hpt]
    rw [h1]
    exact (mem_MILITARY_TYPES_iff t).mp ht
  · intro doneOrder h
    have h0 : Ev.fetchStart MilitaryType.bunker ∈ loadPre doneOrder ++ loadPost := h
    rcases List.mem_append.mp h0 with h1 | h2
    · have h0b : Ev.fetchStart MilitaryType.bunker ∈
          ([Ev.setLoadingEv true] ++ MILITARY_TYPES.map Ev.fetchStart) ++
            doneOrder.map Ev.fetchDone := h1
      rcases List.mem_append.mp h0b with h3 | h4
      · exact absurd h3 (by decide)
      · obtain ⟨t, _, hteq⟩ := List.mem_map.mp h4
        exact Ev.noConfusion hteq
    · exact absurd h2 (by decide)
  · intro env
    cases hres : fetchAll env MILITARY_TYPES with
    | error e =>
      rw [loadAllRun_error env false initialState e hres]
      rfl
    | ok res =>
      have hkeys : res.map Prod.fst = MILITARY_TYPES :=
        fetchAll_ok_fst env MILITARY_TYPES res hres
      have hnot : MilitaryType.bunker ∉ res.map Prod.fst := by
        rw [hkeys]
        decide
      rw [loadAllRun_ok env initialState res hres]
      show applyWrites res initialState.cache MilitaryType.bunker = none
      rw [applyWrites_not_mem MilitaryType.bunker res initialState.cache hnot]
      rfl

/-- Witness for claim C10 discharging the membership characterization
at a concrete category. -/
theorem bunker_never_in_registry_witness :
    MilitaryType.barracks ∈ MILITARY_TYPES :=
  (bunker_never_in_registry.2.1 MilitaryType.barracks).mpr (by decide)

end MilitaryGeo
